import Mathlib

/-!
Shallow embedding of the TryLens.ai front end core logic: the response
extractor, the bounded history store, the generate click handler, the
prompt templates and the request builder, translated from the two source
variants in src/index.tsx and src/unnamed/part_000.
-/

namespace TryLens

/-! Data model of the generation service response, following the shape
`{candidates: [{content: {parts: [...]}}], text}` used by the source. -/

structure InlineData where
  mimeType : String
  data : String
deriving DecidableEq

structure Part where
  inlineData : Option InlineData
  text : Option String
deriving DecidableEq

structure Content where
  parts : Option (List Part)
deriving DecidableEq

structure Candidate where
  content : Option Content
deriving DecidableEq

structure Response where
  candidates : Option (List Candidate)
  text : Option String
deriving DecidableEq

/-- Truthiness test `part => part.inlineData` used by the filter in the
source extraction code. -/
def hasImage (p : Part) : Bool :=
  p.inlineData.isSome

/-- Mapping of one filtered part to a displayable image source, from
`data:{mimeType};base64,{data}` template literal construction in the source
(the none branch is unreachable on filtered parts). -/
def partToSource (p : Part) : String :=
  match p.inlineData with
  | some d => "data:" ++ d.mimeType ++ ";base64," ++ d.data
  | none => ""

/-- Optional chain `response.candidates?.[0]?.content?.parts?.filter(part => part.inlineData)`
from the source: any missing link yields none. -/
def extractImageParts (r : Response) : Option (List Part) :=
  (((r.candidates.bind List.head?).bind Candidate.content).bind Content.parts).map
    (List.filter hasImage)

/-- The message `response.text || "No text response."` shown when no image
part is present; JS falsiness makes the empty string fall back as well. -/
def fallbackText (r : Response) : String :=
  match r.text with
  | some t => if t = "" then "No text response." else t
  | none => "No text response."

inductive ExtractOutcome where
  | images (sources : List String)
  | noImageReturned (message : String)
deriving DecidableEq

/-- The response extraction of the generate click handler: the guard
`if (imageParts && imageParts.length > 0)` followed by the map to image
sources, else the no-image alert message. -/
def extractOutcome (r : Response) : ExtractOutcome :=
  match extractImageParts r with
  | some imageParts =>
    if imageParts.length > 0 then
      ExtractOutcome.images (imageParts.map partToSource)
    else
      ExtractOutcome.noImageReturned (fallbackText r)
  | none => ExtractOutcome.noImageReturned (fallbackText r)

/-! History and result store. -/

structure HistoryItem where
  original : String
  variants : List String
deriving DecidableEq

/-- One recording step of the history, from
`history.unshift(newResult); if (history.length > 5) history.pop();`. -/
def record (h : List HistoryItem) (r : HistoryItem) : List HistoryItem :=
  let h2 := r :: h
  if h2.length > 5 then h2.dropLast else h2

/-- Reading a stored entry back for re-display. -/
def select (h : List HistoryItem) (i : Nat) : Option HistoryItem :=
  h[i]?

/-- Image value read from an uploaded or captured file: mime type, base64
payload and the data URL kept for display, from fileToGenerativePart. -/
structure ImagePart where
  mimeType : String
  data : String
  url : String
deriving DecidableEq

/-- The module level mutable variables of the source that the pipeline
touches: originalPhotoSrc, currentGeneratedSources and history. -/
structure AppState where
  originalPhotoSrc : String
  currentGeneratedSources : List String
  history : List HistoryItem
deriving DecidableEq

/-- State effect of showResult: besides DOM writes it only assigns
`currentGeneratedSources = result.variants`. -/
def showResult (s : AppState) (result : HistoryItem) : AppState :=
  { s with currentGeneratedSources := result.variants }

/-- Clicking a history thumbnail at index i runs showResult on the stored
item, from the renderHistory click wiring. -/
def selectHistory (s : AppState) (i : Nat) : AppState :=
  match s.history[i]? with
  | some it => showResult s it
  | none => s

inductive GenOutcome where
  | missingInput
  | serviceFailure
  | noImageReturned (message : String)
  | success (result : HistoryItem)
deriving DecidableEq

def GenOutcome.isSuccess : GenOutcome → Bool
  | GenOutcome.success _ => true
  | _ => false

structure ClickResult where
  state : AppState
  outcome : GenOutcome
  networkCalls : Nat
  loadingEntered : Bool
deriving DecidableEq

/-- The generate click handler, from the source listener: the guard over
the two uploads and the API key returns early before any effect; otherwise
loading is entered, originalPhotoSrc is assigned the photo data URL before
dispatch, the single service call is made, and on a successful extraction
the result is shown and recorded; a thrown service error is caught after
the originalPhotoSrc assignment. -/
def generateClick (product photo : Option ImagePart) (apiKey : Option String)
    (svc : Except Unit Response) (s : AppState) : ClickResult :=
  match product, photo, apiKey with
  | some _, some ph, some _ =>
    let s1 : AppState := { s with originalPhotoSrc := ph.url }
    match svc with
    | Except.error _ => ⟨s1, GenOutcome.serviceFailure, 1, true⟩
    | Except.ok resp =>
      match extractOutcome resp with
      | ExtractOutcome.images sources =>
        let newResult : HistoryItem := ⟨s1.originalPhotoSrc, sources⟩
        let s2 := showResult s1 newResult
        let s3 : AppState := { s2 with history := record s2.history newResult }
        ⟨s3, GenOutcome.success newResult, 1, true⟩
      | ExtractOutcome.noImageReturned msg =>
        ⟨s1, GenOutcome.noImageReturned msg, 1, true⟩
  | _, _, _ => ⟨s, GenOutcome.missingInput, 0, false⟩

/-! Request builder. -/

inductive Modality where
  | image
  | text
deriving DecidableEq

structure GenRequest where
  model : String
  parts : List Part
  responseModalities : List Modality
deriving DecidableEq

/-- The generateContent call payload from the source: three ordered parts
(product inline data, photo inline data, text prompt) and the two response
modalities. -/
def buildRequest (productPart photoPart : ImagePart) (prompt : String) : GenRequest :=
  { model := "gemini-2.5-flash-image-preview"
  , parts :=
      [ ⟨some ⟨productPart.mimeType, productPart.data⟩, none⟩
      , ⟨some ⟨photoPart.mimeType, photoPart.data⟩, none⟩
      , ⟨none, some prompt⟩ ]
  , responseModalities := [Modality.image, Modality.text] }

/-! Prompt templates. Slider and select values are DOM strings, so the
builders take string parameters, exactly as the template literals read
them. -/

/-- Template literal of the virtual try-on variant (first build in
src/unnamed/part_000); its only placeholder is the scale slider value. -/
def tryOnPrompt (scale : String) : String :=
  "Task: Virtual Try-On.\n\nBase image: The second image provided (the user\x27s photo).\nProduct image: The first image provided (the clothing item).\n\nInstructions:\n1. Identify the main person in the base image.\n2. Replace the clothing worn by the person (e.g., dress, shirt, top) with the clothing from the product image.\n3. The new clothing should be scaled to approximately "
  ++ scale ++
  "% of the person\x27s torso height to ensure a good fit.\n4. Realistically adapt the product to the person\x27s body shape, posture, and pose.\n5. Match the lighting, shadows, and color temperature of the base image to create a seamless, photorealistic result.\n6. Do not modify the person\x27s face, body, or the background. Only change the clothing.\n7. Generate 3 variants with slight variations in fit and drape."

/-- Template literal of the background composite variant (second build in
src/unnamed/part_000); placeholders are placement, scale and shadow. -/
def compositePrompt (placement scale shadow : String) : String :=
  "Base image: The second image provided (the photo). Overlay image: The first image provided (the product).\n\nTask: Insert the product from the overlay image into the base image at the "
  ++ placement ++
  " area.\nScale the product to about "
  ++ scale ++
  "% of the photo\x27s width.\nMatch the scene’s lighting, color temperature, and perspective.\nAdd realistic shadows with an intensity of about "
  ++ shadow ++
  " (where 0.0 is none and 1.0 is dark).\nDo not modify the person’s face or the background.\nOutput a natural-looking, high-resolution composite suitable for a premium ecommerce preview.\nGenerate 3 variants with slight rotation differences."

/-- Naive substring occurrence test on character lists. -/
def subOf (pat : List Char) : List Char → Bool
  | [] => pat.isEmpty
  | c :: tl => pat.isPrefixOf (c :: tl) || subOf pat tl

/-- Whether pat occurs as a contiguous substring of s. -/
def strOccurs (pat s : String) : Bool :=
  subOf pat.toList s.toList

/-- Whether every part of every candidate of the response is free of
inline image data. -/
def responseAllText (r : Response) : Bool :=
  match r.candidates with
  | none => true
  | some cs =>
    cs.all fun c =>
      match c.content with
      | none => true
      | some ct =>
        match ct.parts with
        | none => true
        | some ps => ps.all fun p => p.inlineData.isNone

/-! Concrete fixtures used by witness theorems. -/

def textPartW : Part := ⟨none, some "hello"⟩

def imgPartA : Part := ⟨some ⟨"image/png", "AAAA"⟩, none⟩

def imgPartB : Part := ⟨some ⟨"image/jpeg", "BBBB"⟩, none⟩

def respTwoImages : Response :=
  ⟨some [⟨some ⟨some [textPartW, imgPartA, imgPartB]⟩⟩], some "ok"⟩

def respOnlyText : Response :=
  ⟨some [⟨some ⟨some [textPartW]⟩⟩], some "only text"⟩

def productA : ImagePart :=
  ⟨"image/png", "UFJPRA", "data:image/png;base64,UFJPRA"⟩

def photoB : ImagePart :=
  ⟨"image/jpeg", "UEhPVE8", "data:image/jpeg;base64,UEhPVE8"⟩

def stateOld : AppState :=
  ⟨"old-photo-src", ["old-variant"], [⟨"h-orig", ["h-var"]⟩]⟩

/-! Helper lemmas shared by the claim theorems. -/

theorem record_def (h : List HistoryItem) (r : HistoryItem) :
    record h r = if (r :: h).length > 5 then (r :: h).dropLast else r :: h := rfl

theorem record_head (h : List HistoryItem) (r : HistoryItem) :
    (record h r)[0]? = some r := by
  rw [record_def]
  by_cases h5 : (r :: h).length > 5
  · rw [if_pos h5]
    cases h with
    | nil => simp at h5
    | cons x xs => simp [List.dropLast]
  · rw [if_neg h5]
    simp

theorem record_eq_take (h : List HistoryItem) (r : HistoryItem) (hl : h.length ≤ 5) :
    record h r = (r :: h).take 5 := by
  rw [record_def]
  by_cases h5 : (r :: h).length > 5
  · rw [if_pos h5]
    have h6 : (r :: h).length = 6 := by simp at h5 ⊢; omega
    rw [List.dropLast_eq_take, h6]
  · rw [if_neg h5]
    exact (List.take_of_length_le (by simp at h5 ⊢; omega)).symm

theorem take_append_take {α : Type} (l m : List α) (n : Nat) :
    (l ++ m.take n).take n = (l ++ m).take n := by
  rw [List.take_append_eq_append_take, List.take_append_eq_append_take, List.take_take]
  have : min (n - l.length) n = n - l.length := Nat.min_eq_left (Nat.sub_le n l.length)
  rw [this]

theorem foldl_record_eq (rs : List HistoryItem) :
    ∀ acc : List HistoryItem, acc.length ≤ 5 →
      List.foldl record acc rs = (rs.reverse ++ acc).take 5 := by
  induction rs with
  | nil =>
    intro acc hl
    simp [List.take_of_length_le hl]
  | cons r rs ih =>
    intro acc hl
    have hrec : record acc r = (r :: acc).take 5 := record_eq_take acc r hl
    have hlen : (record acc r).length ≤ 5 := by
      rw [hrec]; simp
    rw [List.foldl_cons, ih (record acc r) hlen, hrec]
    have hassoc : (r :: rs).reverse ++ acc = rs.reverse ++ (r :: acc) := by simp
    rw [hassoc]
    exact take_append_take _ _ _

theorem extractImageParts_eq (r : Response) (c : Candidate) (cs : List Candidate)
    (ct : Content) (ps : List Part)
    (hc : r.candidates = some (c :: cs)) (hct : c.content = some ct)
    (hps : ct.parts = some ps) :
    extractImageParts r = some (ps.filter hasImage) := by
  simp [extractImageParts, hc, hct, hps]

theorem extractOutcome_eq_some (r : Response) (ips : List Part)
    (he : extractImageParts r = some ips) :
    extractOutcome r = if ips.length > 0
      then ExtractOutcome.images (ips.map partToSource)
      else ExtractOutcome.noImageReturned (fallbackText r) := by
  simp only [extractOutcome, he]

theorem extractOutcome_eq_none (r : Response) (he : extractImageParts r = none) :
    extractOutcome r = ExtractOutcome.noImageReturned (fallbackText r) := by
  simp only [extractOutcome, he]

theorem extractOutcome_images_ne_nil (r : Response) (sources : List String)
    (h : extractOutcome r = ExtractOutcome.images sources) : sources ≠ [] := by
  cases he : extractImageParts r with
  | none => rw [extractOutcome_eq_none r he] at h; simp at h
  | some ips =>
    rw [extractOutcome_eq_some r ips he] at h
    by_cases hl : ips.length > 0
    · rw [if_pos hl] at h
      injection h with h1
      intro hnil
      rw [hnil] at h1
      have := List.map_eq_nil_iff.mp h1
      rw [this] at hl
      simp at hl
    · rw [if_neg hl] at h
      simp at h

theorem responseAllText_noImages (r : Response) (hall : responseAllText r = true)
    (sources : List String) : extractOutcome r ≠ ExtractOutcome.images sources := by
  intro h
  cases he : extractImageParts r with
  | none => rw [extractOutcome_eq_none r he] at h; simp at h
  | some ips =>
    rw [extractOutcome_eq_some r ips he] at h
    by_cases hl : ips.length > 0
    · have he2 := he
      unfold extractImageParts at he2
      obtain ⟨ps, hchain, hfilter⟩ := Option.map_eq_some'.mp he2
      obtain ⟨ct, hct, hps⟩ := Option.bind_eq_some.mp hchain
      obtain ⟨c, hcand, hcontent⟩ := Option.bind_eq_some.mp hct
      obtain ⟨cs, hcs, hhead⟩ := Option.bind_eq_some.mp hcand
      cases cs with
      | nil => simp at hhead
      | cons c0 tl =>
        have hc0 : c0 = c := by simpa using hhead
        subst hc0
        simp only [responseAllText, hcs, List.all_cons, Bool.and_eq_true] at hall
        have hcall := hall.1
        simp only [hcontent, hps] at hcall
        have hpall := List.all_eq_true.mp hcall
        have hemp : ps.filter hasImage = [] := by
          rw [List.filter_eq_nil_iff]
          intro p hp
          have hn := hpall p hp
          simp [hasImage, Option.isNone_iff_eq_none.mp hn]
        rw [hemp] at hfilter
        rw [← hfilter] at hl
        simp at hl
    · rw [if_neg hl] at h
      simp at h

theorem generateClick_missing_aux (product photo : Option ImagePart)
    (apiKey : Option String) (svc : Except Unit Response) (s : AppState)
    (h : product = none ∨ photo = none ∨ apiKey = none) :
    generateClick product photo apiKey svc s =
      ⟨s, GenOutcome.missingInput, 0, false⟩ := by
  cases product with
  | none => cases photo <;> cases apiKey <;> rfl
  | some p =>
    cases photo with
    | none => cases apiKey <;> rfl
    | some ph =>
      cases apiKey with
      | none => rfl
      | some k => rcases h with h | h | h <;> simp at h

theorem generateClick_some_error (p ph : ImagePart) (k : String) (s : AppState) :
    generateClick (some p) (some ph) (some k) (Except.error ()) s =
      ⟨{ s with originalPhotoSrc := ph.url }, GenOutcome.serviceFailure, 1, true⟩ := rfl

theorem generateClick_some_ok_images (p ph : ImagePart) (k : String) (resp : Response)
    (s : AppState) (sources : List String)
    (hext : extractOutcome resp = ExtractOutcome.images sources) :
    generateClick (some p) (some ph) (some k) (Except.ok resp) s =
      ⟨⟨ph.url, sources, record s.history ⟨ph.url, sources⟩⟩,
        GenOutcome.success ⟨ph.url, sources⟩, 1, true⟩ := by
  simp only [generateClick, hext, showResult]

theorem generateClick_some_ok_noimg (p ph : ImagePart) (k : String) (resp : Response)
    (s : AppState) (msg : String)
    (hext : extractOutcome resp = ExtractOutcome.noImageReturned msg) :
    generateClick (some p) (some ph) (some k) (Except.ok resp) s =
      ⟨{ s with originalPhotoSrc := ph.url }, GenOutcome.noImageReturned msg, 1, true⟩ := by
  simp only [generateClick, hext, showResult]

/-! Claim theorems. -/

set_option maxRecDepth 100000

/-- C1: for a response whose first candidate content holds a list of parts,
the extractor returns exactly the inline-image parts, in order, each mapped
to the source string data:mimeType;base64,data, when at least one is
present; with none present it returns the no-image failure carrying the
response text, or the fixed fallback string when the text is absent. -/
theorem extractOutcome_spec (r : Response) (c : Candidate) (cs : List Candidate)
    (ct : Content) (ps : List Part)
    (hc : r.candidates = some (c :: cs)) (hct : c.content = some ct)
    (hps : ct.parts = some ps) :
    ((ps.filter hasImage).length > 0 →
      extractOutcome r = ExtractOutcome.images ((ps.filter hasImage).map partToSource) ∧
      ((ps.filter hasImage).map partToSource).length = (ps.filter hasImage).length ∧
      (∀ (j : Nat) (d : InlineData),
        ((ps.filter hasImage)[j]?).bind Part.inlineData = some d →
        ((ps.filter hasImage).map partToSource)[j]? =
          some ("data:" ++ d.mimeType ++ ";base64," ++ d.data))) ∧
    (∀ j : Nat, j < (ps.filter hasImage).length →
      ∃ d : InlineData, ((ps.filter hasImage)[j]?).bind Part.inlineData = some d) ∧
    ((ps.filter hasImage).length = 0 →
      (∀ t : String, r.text = some t → t ≠ "" →
        extractOutcome r = ExtractOutcome.noImageReturned t) ∧
      (r.text = none →
        extractOutcome r = ExtractOutcome.noImageReturned "No text response.")) := by
  have he := extractImageParts_eq r c cs ct ps hc hct hps
  have hout := extractOutcome_eq_some r (ps.filter hasImage) he
  refine ⟨?_, ?_, ?_⟩
  · intro hk
    refine ⟨by rw [hout, if_pos hk], by simp, ?_⟩
    intro j d hd
    rw [List.getElem?_map]
    cases hj : (ps.filter hasImage)[j]? with
    | none => rw [hj] at hd; simp at hd
    | some p =>
      rw [hj] at hd
      simp only [Option.some_bind] at hd
      simp [partToSource, hd]
  · intro j hj
    have hmem : (ps.filter hasImage)[j] ∈ ps.filter hasImage := List.getElem_mem hj
    have himg : hasImage ((ps.filter hasImage)[j]) = true := (List.mem_filter.mp hmem).2
    unfold hasImage at himg
    obtain ⟨d, hd⟩ := Option.isSome_iff_exists.mp himg
    refine ⟨d, ?_⟩
    rw [List.getElem?_eq_getElem hj]
    simpa using hd
  · intro hk
    have hnot : ¬ (ps.filter hasImage).length > 0 := by omega
    constructor
    · intro t ht hne
      rw [hout, if_neg hnot]
      have hft : fallbackText r = t := by
        simp only [fallbackText, ht]
        rw [if_neg hne]
      rw [hft]
    · intro ht
      rw [hout, if_neg hnot]
      have hft : fallbackText r = "No text response." := by
        simp only [fallbackText, ht]
      rw [hft]

/-- C1 witness: on a fixture with two inline-image parts the extractor
returns both sources in order; on an all-text fixture it returns the
failure case with the response text. -/
theorem extractOutcome_spec_witness :
    extractOutcome respTwoImages =
      ExtractOutcome.images
        ["data:image/png;base64,AAAA", "data:image/jpeg;base64,BBBB"] ∧
    extractOutcome respOnlyText = ExtractOutcome.noImageReturned "only text" := by
  constructor
  · have h := extractOutcome_spec respTwoImages ⟨some ⟨some [textPartW, imgPartA, imgPartB]⟩⟩
      [] ⟨some [textPartW, imgPartA, imgPartB]⟩ [textPartW, imgPartA, imgPartB] rfl rfl rfl
    exact ((h.1 (by decide)).1).trans (by decide)
  · have h := extractOutcome_spec respOnlyText ⟨some ⟨some [textPartW]⟩⟩
      [] ⟨some [textPartW]⟩ [textPartW] rfl rfl rfl
    exact (h.2.2 (by decide)).1 "only text" rfl (by decide)

/-- C2: the history never exceeds five entries, the just-recorded result
sits at index zero, and after recording six results in sequence the first
is evicted and the five most recent remain in newest-first order. -/
theorem history_bounded_newest_first :
    (∀ rs : List HistoryItem, (List.foldl record [] rs).length ≤ 5) ∧
    (∀ (h : List HistoryItem) (r : HistoryItem), (record h r)[0]? = some r) ∧
    (∀ a b c d e f : HistoryItem,
      List.foldl record [] [a, b, c, d, e, f] = [f, e, d, c, b]) := by
  refine ⟨?_, record_head, ?_⟩
  · intro rs
    rw [foldl_record_eq rs [] (by simp)]
    simp
  · intro a b c d e f
    rw [foldl_record_eq [a, b, c, d, e, f] [] (by simp)]
    rfl

/-- C3: when the product image, the photo, or the API key is missing, the
click is rejected as missing input before dispatch: zero network calls, no
loading state entered, and the state is returned unchanged. -/
theorem generateClick_missingInput (product photo : Option ImagePart)
    (apiKey : Option String) (svc : Except Unit Response) (s : AppState)
    (h : product = none ∨ photo = none ∨ apiKey = none) :
    generateClick product photo apiKey svc s =
      ⟨s, GenOutcome.missingInput, 0, false⟩ :=
  generateClick_missing_aux product photo apiKey svc s h

/-- C3 witness: with no inputs provided, the click at a concrete state is
rejected with zero network calls and the state unchanged. -/
theorem generateClick_missingInput_witness :
    generateClick none none none (Except.error ()) stateOld =
      ⟨stateOld, GenOutcome.missingInput, 0, false⟩ :=
  generateClick_missingInput none none none (Except.error ()) stateOld (Or.inl rfl)

/-- C4 counterexample: a service failure is terminal, yet the state is not
exactly as before the request: originalPhotoSrc has already been
overwritten with the new photo display URL assigned before dispatch. -/
theorem generateClick_serviceFailure_mutates :
    (generateClick (some productA) (some photoB) (some "key") (Except.error ())
      stateOld).outcome = GenOutcome.serviceFailure ∧
    stateOld.originalPhotoSrc = "old-photo-src" ∧
    (generateClick (some productA) (some photoB) (some "key") (Except.error ())
      stateOld).state.originalPhotoSrc = photoB.url ∧
    (generateClick (some productA) (some photoB) (some "key") (Except.error ())
      stateOld).state ≠ stateOld :=
  ⟨rfl, rfl, rfl, by decide⟩

/-- C4 amended: on every non-success outcome the history list and the
current variant sources keep their prior values; on missing input the whole
state is unchanged; on the other error kinds the only change is that
originalPhotoSrc already holds the new photo display URL. -/
theorem generateClick_error_preserves_store (product photo : Option ImagePart)
    (apiKey : Option String) (svc : Except Unit Response) (s : AppState)
    (h : (generateClick product photo apiKey svc s).outcome.isSuccess = false) :
    (generateClick product photo apiKey svc s).state.history = s.history ∧
    (generateClick product photo apiKey svc s).state.currentGeneratedSources =
      s.currentGeneratedSources ∧
    ((generateClick product photo apiKey svc s).outcome = GenOutcome.missingInput →
      (generateClick product photo apiKey svc s).state = s) ∧
    (∀ ph : ImagePart, photo = some ph →
      (generateClick product photo apiKey svc s).outcome ≠ GenOutcome.missingInput →
      (generateClick product photo apiKey svc s).state.originalPhotoSrc = ph.url) := by
  rcases product with _ | p
  · rw [generateClick_missing_aux _ _ _ _ _ (Or.inl rfl)]
    exact ⟨rfl, rfl, fun _ => rfl, fun ph0 hph0 hne => absurd rfl hne⟩
  · rcases photo with _ | ph
    · rw [generateClick_missing_aux _ _ _ _ _ (Or.inr (Or.inl rfl))]
      exact ⟨rfl, rfl, fun _ => rfl, fun ph0 hph0 hne => by cases hph0⟩
    · rcases apiKey with _ | k
      · rw [generateClick_missing_aux _ _ _ _ _ (Or.inr (Or.inr rfl))]
        exact ⟨rfl, rfl, fun _ => rfl, fun ph0 hph0 hne => absurd rfl hne⟩
      · cases svc with
        | error e =>
          cases e
          rw [generateClick_some_error]
          refine ⟨rfl, rfl, ?_, ?_⟩
          · intro hx; simp at hx
          · intro ph0 hph0 hne
            injection hph0 with h1
            subst h1
            rfl
        | ok resp =>
          cases hext : extractOutcome resp with
          | images sources =>
            rw [generateClick_some_ok_images p ph k resp s sources hext] at h
            simp [GenOutcome.isSuccess] at h
          | noImageReturned msg =>
            rw [generateClick_some_ok_noimg p ph k resp s msg hext]
            refine ⟨rfl, rfl, ?_, ?_⟩
            · intro hx; simp at hx
            · intro ph0 hph0 hne
              injection hph0 with h1
              subst h1
              rfl

/-- C4 amended witness: at a concrete service failure the history and the
current variant sources are unchanged while originalPhotoSrc holds the new
photo URL. -/
theorem generateClick_error_preserves_store_witness :
    (generateClick (some productA) (some photoB) (some "key") (Except.error ())
      stateOld).state.history = stateOld.history ∧
    (generateClick (some productA) (some photoB) (some "key") (Except.error ())
      stateOld).state.currentGeneratedSources = stateOld.currentGeneratedSources ∧
    (generateClick (some productA) (some photoB) (some "key") (Except.error ())
      stateOld).state.originalPhotoSrc = photoB.url := by
  have h := generateClick_error_preserves_store (some productA) (some photoB)
    (some "key") (Except.error ()) stateOld rfl
  exact ⟨h.1, h.2.1, h.2.2.2 photoB rfl (by decide)⟩

/-- C5: recording a result and selecting index zero returns the
just-recorded result unchanged. -/
theorem record_select_roundtrip (h : List HistoryItem) (r : HistoryItem) :
    select (record h r) 0 = some r :=
  record_head h r

/-- C6 counterexample: the try-on variant template with scale 40 does not
contain the substring 0.6 at all (it has no shadow placeholder), so the
claim that its output contains both 40% and 0.6 is false. -/
theorem tryOnPrompt_missing_shadow :
    ¬ (strOccurs "40%" (tryOnPrompt "40") = true ∧
       strOccurs "0.6" (tryOnPrompt "40") = true) := by
  intro hx
  exact absurd hx.2 (by decide)

/-- C6 amended: with scale 40 the try-on prompt contains 40% and no
unresolved placeholder, but not 0.6, which the try-on template never
substitutes; the substrings 40% and 0.6 both appear, with no unresolved
placeholder, in the composite variant prompt, where placement is present
rather than absent. -/
theorem prompt_substitution :
    strOccurs "40%" (tryOnPrompt "40") = true ∧
    strOccurs "0.6" (tryOnPrompt "40") = false ∧
    strOccurs "$\x7b" (tryOnPrompt "40") = false ∧
    strOccurs "40%" (compositePrompt "table" "40" "0.6") = true ∧
    strOccurs "0.6" (compositePrompt "table" "40" "0.6") = true ∧
    strOccurs "$\x7b" (compositePrompt "table" "40" "0.6") = false :=
  ⟨by decide, by decide, by decide, by decide, by decide, by decide⟩

/-- C7: the dispatched request carries exactly three content parts in the
order product inline data, photo inline data, text prompt, and declares
exactly the image and text response modalities. -/
theorem buildRequest_spec (productPart photoPart : ImagePart) (prompt : String) :
    (buildRequest productPart photoPart prompt).parts.length = 3 ∧
    (buildRequest productPart photoPart prompt).parts =
      [ ⟨some ⟨productPart.mimeType, productPart.data⟩, none⟩
      , ⟨some ⟨photoPart.mimeType, photoPart.data⟩, none⟩
      , ⟨none, some prompt⟩ ] ∧
    (buildRequest productPart photoPart prompt).responseModalities =
      [Modality.image, Modality.text] :=
  ⟨rfl, rfl, rfl⟩

/-- C8: a generation result is only constructed with at least one extracted
image source; on any non-success outcome, and in particular whenever the
response has no inline image part anywhere, the history is unchanged. -/
theorem result_only_with_images (product photo : Option ImagePart)
    (apiKey : Option String) (svc : Except Unit Response) (s : AppState) :
    (∀ it : HistoryItem,
      (generateClick product photo apiKey svc s).outcome = GenOutcome.success it →
      it.variants ≠ []) ∧
    ((generateClick product photo apiKey svc s).outcome.isSuccess = false →
      (generateClick product photo apiKey svc s).state.history = s.history) ∧
    (∀ resp : Response, svc = Except.ok resp → responseAllText resp = true →
      (generateClick product photo apiKey svc s).state.history = s.history) := by
  rcases product with _ | p
  · rw [generateClick_missing_aux _ _ _ _ _ (Or.inl rfl)]
    exact ⟨fun it hx => by simp at hx, fun _ => rfl, fun _ _ _ => rfl⟩
  · rcases photo with _ | ph
    · rw [generateClick_missing_aux _ _ _ _ _ (Or.inr (Or.inl rfl))]
      exact ⟨fun it hx => by simp at hx, fun _ => rfl, fun _ _ _ => rfl⟩
    · rcases apiKey with _ | k
      · rw [generateClick_missing_aux _ _ _ _ _ (Or.inr (Or.inr rfl))]
        exact ⟨fun it hx => by simp at hx, fun _ => rfl, fun _ _ _ => rfl⟩
      · cases svc with
        | error e =>
          cases e
          rw [generateClick_some_error]
          exact ⟨fun it hx => by simp at hx, fun _ => rfl, fun resp hok => by cases hok⟩
        | ok resp =>
          cases hext : extractOutcome resp with
          | images sources =>
            rw [generateClick_some_ok_images p ph k resp s sources hext]
            refine ⟨?_, ?_, ?_⟩
            · intro it hx
              injection hx with h1
              subst h1
              exact extractOutcome_images_ne_nil resp sources hext
            · intro hfalse
              simp [GenOutcome.isSuccess] at hfalse
            · intro resp0 hok hall
              injection hok with h2
              rw [← h2] at hall
              exact absurd hext (responseAllText_noImages resp hall sources)
          | noImageReturned msg =>
            rw [generateClick_some_ok_noimg p ph k resp s msg hext]
            exact ⟨fun it hx => by simp at hx, fun _ => rfl, fun _ _ _ => rfl⟩

/-- C8 witness: at a concrete all-text response the history is unchanged. -/
theorem result_only_with_images_witness :
    (generateClick (some productA) (some photoB) (some "key")
      (Except.ok respOnlyText) stateOld).state.history = stateOld.history :=
  (result_only_with_images (some productA) (some photoB) (some "key")
    (Except.ok respOnlyText) stateOld).2.2 respOnlyText rfl (by decide)

/-- C9: the extractor reads only the first candidate: appended further
candidates never change its outcome, and a response with no candidates, an
empty candidate list, a first candidate without content, or content without
parts yields the no-image failure case rather than an error. -/
theorem extractor_first_candidate_only :
    (∀ (c : Candidate) (rest : List Candidate) (t : Option String),
      extractOutcome ⟨some (c :: rest), t⟩ = extractOutcome ⟨some [c], t⟩) ∧
    (∀ t : Option String,
      extractOutcome ⟨none, t⟩ =
        ExtractOutcome.noImageReturned (fallbackText ⟨none, t⟩)) ∧
    (∀ t : Option String,
      extractOutcome ⟨some [], t⟩ =
        ExtractOutcome.noImageReturned (fallbackText ⟨some [], t⟩)) ∧
    (∀ (rest : List Candidate) (t : Option String),
      extractOutcome ⟨some (⟨none⟩ :: rest), t⟩ =
        ExtractOutcome.noImageReturned (fallbackText ⟨some (⟨none⟩ :: rest), t⟩)) ∧
    (∀ (rest : List Candidate) (t : Option String),
      extractOutcome ⟨some (⟨some ⟨none⟩⟩ :: rest), t⟩ =
        ExtractOutcome.noImageReturned (fallbackText ⟨some (⟨some ⟨none⟩⟩ :: rest), t⟩)) :=
  ⟨fun _ _ _ => rfl, fun _ => rfl, fun _ => rfl, fun _ _ => rfl, fun _ _ => rfl⟩

/-- C10: selecting a stored entry for re-display never changes the history
sequence, the selection read back is the same, and showResult only sets the
current variant sources to the stored variants, leaving the rest alone. -/
theorem select_frame :
    (∀ (s : AppState) (i : Nat), (selectHistory s i).history = s.history) ∧
    (∀ (s : AppState) (i : Nat),
      select (selectHistory s i).history i = select s.history i) ∧
    (∀ (s : AppState) (it : HistoryItem),
      (showResult s it).history = s.history ∧
      (showResult s it).originalPhotoSrc = s.originalPhotoSrc ∧
      (showResult s it).currentGeneratedSources = it.variants) := by
  have hh : ∀ (s : AppState) (i : Nat), (selectHistory s i).history = s.history := by
    intro s i
    unfold selectHistory
    split <;> rfl
  refine ⟨hh, ?_, fun s it => ⟨rfl, rfl, rfl⟩⟩
  intro s i
  rw [hh s i]

end TryLens
